import Mathlib

/-!
Shallow embedding of the governor-extension-sdk event router core:
the history cache (`pkg/eventrouter/historycache/local.go`, `nats.go`),
the correlation-ID processor (`pkg/eventrouter/correlationid.go`) and the
router (`pkg/eventrouter/eventrouter.go` / router implementation).

Go side effects are modelled by explicit state passing: a `Handler` takes and
returns a `World`, which carries the history-cache state and an observation
log used to record handler invocations and middleware entry/exit markers.
Go errors are `Option Err` (`none` is Go `nil`).
-/

/-- Go `error` values that appear in the modelled code. -/
inductive Err where
  /-- Model of `eventrouter.ErrHandlerNotFound` (errors.go). -/
  | handlerNotFound : Err
  /-- Model of `nats.ErrKeyExists`, the distinguishable already-exists condition. -/
  | keyExists : Err
  /-- any other backing-store failure, tagged with a message. -/
  | cacheErr : String → Err
  /-- an opaque error returned by a registered handler. -/
  | handlerErr : String → Err
deriving DecidableEq, Repr

/-- Go `error` is nilable: `none` is Go `nil`. -/
abbrev GoError := Option Err

/-! External constants from `governor-api/pkg/events/v1alpha1`: the six event
actions and the correlation-ID header key. Only their identities matter;
they are pairwise distinct strings. -/

def GovernorEventCreate : String := "CREATE"

def GovernorEventUpdate : String := "UPDATE"

def GovernorEventDelete : String := "DELETE"

def GovernorEventApprove : String := "APPROVE"

def GovernorEventDeny : String := "DENY"

def GovernorEventRevoke : String := "REVOKE"

def GovernorEventCorrelationIDHeader : String := "X-Correlation-ID"

/-- Model of `nats.Header.Get`: first value under the key, `""` when absent. -/
def headerGet (hs : List (String × String)) (key : String) : String :=
  match hs with
  | [] => ""
  | (k, v) :: rest => if k = key then v else headerGet rest key

/-- Model of `govevents.Event`: the fields the router core reads. `headers = none`
models a nil `nats.Header`. -/
structure Event where
  action : String
  headers : Option (List (String × String))
  extensionResourceID : String
deriving Repr

/-- Model of `context.Context` restricted to the two values this code stores:
the subject (contexts.go) and the correlation ID
(`govevents.InjectCorrelationID`). -/
structure Ctx where
  subject : Option String
  correlationID : Option String
deriving DecidableEq, Repr

/-- The background context: no values set. -/
def Ctx.background : Ctx := ⟨none, none⟩

/-- Model of `SaveSubjectToContext` (contexts.go). -/
def SaveSubjectToContext (ctx : Ctx) (subject : String) : Ctx :=
  { ctx with subject := some subject }

/-- Model of `GetSubjectFromContext` (contexts.go): `""` when unset. -/
def GetSubjectFromContext (ctx : Ctx) : String :=
  match ctx.subject with
  | some s => s
  | none => ""

/-- Model of `govevents.InjectCorrelationID` (external): stores the ID in the context. -/
def InjectCorrelationID (ctx : Ctx) (cid : String) : Ctx :=
  { ctx with correlationID := some cid }

/-- The mutable world a dispatch runs in: the history-cache backing state
(`κ`) and an observation log in which model handlers and marker middlewares
record their execution. -/
structure World (κ : Type) where
  cache : κ
  log : List String

/-- Model of `eventrouter.Handler`: `func(ctx, *Event) error`, state-passing. -/
def Handler (κ : Type) : Type := Ctx → Event → World κ → GoError × World κ

/-- Model of `eventrouter.Middleware`: wraps a handler. -/
def Middleware (κ : Type) : Type := Handler κ → Handler κ

/-- Model of `historycache.HistoryCache`: the `ExistsOrStore` capability over backing
state `κ`, returning `(existed, err)` and the updated state. -/
structure HistoryCache (κ : Type) where
  existsOrStore : κ → String → Bool × GoError × κ

/-! ### Local cache (`historycache/local.go`)

`LocalCache` wraps an expirable LRU (external library); its state is
modelled as the list of currently present keys. Capacity/TTL eviction of
the underlying LRU is environmental and not modelled: every claim about the
local cache assumes no eviction or expiry between the calls it mentions. -/

/-- The set of keys present in the local cache. -/
abbrev LocalCache : Type := List String

instance : DecidableEq LocalCache := inferInstanceAs (DecidableEq (List String))

/-- Model of `LocalCache.ExistsOrStore`: check presence; store on absence; return
whether the key already existed. Never errors. -/
def LocalCache.existsOrStore (lc : LocalCache) (id : String) : Bool × GoError × LocalCache :=
  let ex := lc.contains id
  if ex then (true, none, lc) else (false, none, id :: lc)

/-- The local cache as a `HistoryCache`. -/
def localHistoryCache : HistoryCache LocalCache :=
  ⟨LocalCache.existsOrStore⟩

/-! ### Distributed cache (`historycache/nats.go`)

The NATS key-value store offers an atomic create-if-absent. Its state is the
set of present keys plus an environment oracle `ioFail` describing which
create calls fail with an I/O error unrelated to key existence. -/

/-- Model of the NATS KV bucket: present keys and an I/O-failure oracle. -/
structure NatsKV where
  keys : List String
  ioFail : String → Option String

/-- Model of `kv.Create(id, empty)`: fails with the I/O error when the oracle says so,
with `Err.keyExists` when the key is present, and otherwise inserts the key. -/
def NatsKV.create (kv : NatsKV) (id : String) : GoError × NatsKV :=
  match kv.ioFail id with
  | some msg => (some (Err.cacheErr msg), kv)
  | none =>
    if kv.keys.contains id then (some Err.keyExists, kv)
    else (none, { kv with keys := id :: kv.keys })

/-- Model of `NATSCache.ExistsOrStore`: attempt `Create`; `KeyExists` means
`existed = true`; any other error propagates with `existed = false`. -/
def NATSCache.existsOrStore (kv : NatsKV) (id : String) : Bool × GoError × NatsKV :=
  match kv.create id with
  | (none, kv1) => (false, none, kv1)
  | (some e, kv1) =>
    if e = Err.keyExists then (true, none, kv1) else (false, some e, kv1)

/-- The NATS cache as a `HistoryCache`. -/
def natsHistoryCache : HistoryCache NatsKV :=
  ⟨NATSCache.existsOrStore⟩

/-! ### Association lists standing in for Go maps -/

/-- Go map lookup `m[k]` (comma-ok form). -/
def alookup {α : Type} (l : List (String × α)) (k : String) : Option α :=
  match l with
  | [] => none
  | (k1, v) :: rest => if k1 = k then some v else alookup rest k

/-- Go map assignment `m[k] = v`: overwrite or append. -/
def ainsert {α : Type} (l : List (String × α)) (k : String) (v : α) : List (String × α) :=
  match l with
  | [] => [(k, v)]
  | (k1, v1) :: rest => if k1 = k then (k, v) :: rest else (k1, v1) :: ainsert rest k v

/-! ### Correlation-ID processor (`correlationid.go`) -/

/-- A skip strategy: `skippableRoutes`, action to set of subjects (or "*"). -/
abbrev SkipRoutes := List (String × List String)

/-- Model of `CorrelationIDProcessorWithSkipStrategyUpdateOnly`: skip only updates. -/
def skipStrategyUpdateOnly : SkipRoutes :=
  [(GovernorEventUpdate, ["*"])]

/-- Model of `CorrelationIDProcessorWithSkipStrategySkipAll`: skip every action. -/
def skipStrategySkipAll : SkipRoutes :=
  [ (GovernorEventUpdate, ["*"])
  , (GovernorEventCreate, ["*"])
  , (GovernorEventDelete, ["*"])
  , (GovernorEventApprove, ["*"])
  , (GovernorEventDeny, ["*"])
  , (GovernorEventRevoke, ["*"]) ]

/-- Model of `CorrelationIDProcessor`: a history cache and the skip strategy.
Logger omitted (no observable effect). -/
structure CorrelationIDProcessor (κ : Type) where
  histcache : HistoryCache κ
  skippableRoutes : SkipRoutes

/-- Model of `CorrelationIDProcessor.ShouldSkip`: atomically test-and-record `cid`;
propagate a cache error; on first sighting do not skip; otherwise consult
the skip strategy (wildcard subject, then the specific subject). -/
def CorrelationIDProcessor.ShouldSkip {κ : Type} (p : CorrelationIDProcessor κ)
    (s : κ) (cid action subj : String) : Bool × GoError × κ :=
  match p.histcache.existsOrStore s cid with
  | (_, some e, s1) => (false, some e, s1)
  | (ex, none, s1) =>
    if !ex then (false, none, s1)
    else
      match alookup p.skippableRoutes action with
      | some subjs =>
        if subjs.contains "*" then (true, none, s1)
        else if subjs.contains subj then (true, none, s1)
        else (false, none, s1)
      | none => (false, none, s1)

/-- The correlation ID a nil-safe `headers.Get` extracts from an event
(`""` when the header map is nil or the key absent). -/
def eventCID (event : Event) : String :=
  match event.headers with
  | some hs => headerGet hs GovernorEventCorrelationIDHeader
  | none => ""

/-- Model of `CorrelationIDProcessor.MWInjectCorrelationID`: extract the correlation
ID, read the subject from context, call `ShouldSkip` (propagating its
error), return nil on skip when both subject and ID are non-empty, and
otherwise inject the ID into the context and run the next handler. -/
def CorrelationIDProcessor.MWInjectCorrelationID {κ : Type}
    (p : CorrelationIDProcessor κ) : Middleware κ :=
  fun next ctx event w =>
    let cid := eventCID event
    let subj := GetSubjectFromContext ctx
    match p.ShouldSkip w.cache cid event.action subj with
    | (_, some e, c1) => (some e, { w with cache := c1 })
    | (skip, none, c1) =>
      let w1 : World κ := { w with cache := c1 }
      if subj ≠ "" ∧ cid ≠ "" ∧ skip then (none, w1)
      else next (InjectCorrelationID ctx cid) event w1

/-! ### Router (`eventrouter.go` / router implementation) -/

/-- Model of `eventrouter.Router`: the (subject, action) route table and the composed
global middleware chain. -/
structure Router (κ : Type) where
  routes : List (String × List (String × Handler κ))
  mwchain : Middleware κ

/-- Model of `NewRouter` (without options): empty table, identity middleware chain. -/
def NewRouter (κ : Type) : Router κ :=
  { routes := [], mwchain := fun h => h }

/-- Model of `Router.applyGlobalMiddleware`: the new middleware wraps the previously
composed chain. -/
def Router.applyGlobalMiddleware {κ : Type} (r : Router κ) (mw : Middleware κ) : Router κ :=
  { r with mwchain := fun h => mw (r.mwchain h) }

/-- Model of `Router.Use`: add a global middleware. -/
def Router.Use {κ : Type} (r : Router κ) (mw : Middleware κ) : Router κ :=
  r.applyGlobalMiddleware mw

/-- Model of `WithCorrelationIDProcessor`: install `MWInjectCorrelationID` as a
global middleware. -/
def WithCorrelationIDProcessor {κ : Type} (p : CorrelationIDProcessor κ)
    (r : Router κ) : Router κ :=
  r.applyGlobalMiddleware p.MWInjectCorrelationID

/-- Model of `Router.addRoute`: wrap the handler in the per-route middlewares (in
list order, so the last wraps outermost) and bind it at (subject, action),
overwriting any previous binding. -/
def Router.addRoute {κ : Type} (r : Router κ) (action subj : String)
    (handler : Handler κ) (middlewares : List (Middleware κ)) : Router κ :=
  let inner := (alookup r.routes subj).getD []
  let handler := middlewares.foldl (fun h mw => mw h) handler
  { r with routes := ainsert r.routes subj (ainsert inner action handler) }

/-- Model of `Router.Create`. -/
def Router.Create {κ : Type} (r : Router κ) (subj : String) (handler : Handler κ)
    (middlewares : List (Middleware κ) := []) : Router κ :=
  r.addRoute GovernorEventCreate subj handler middlewares

/-- Model of `Router.Update`. -/
def Router.Update {κ : Type} (r : Router κ) (subj : String) (handler : Handler κ)
    (middlewares : List (Middleware κ) := []) : Router κ :=
  r.addRoute GovernorEventUpdate subj handler middlewares

/-- Model of `Router.Delete`. -/
def Router.Delete {κ : Type} (r : Router κ) (subj : String) (handler : Handler κ)
    (middlewares : List (Middleware κ) := []) : Router κ :=
  r.addRoute GovernorEventDelete subj handler middlewares

/-- Model of `Router.Approve`. -/
def Router.Approve {κ : Type} (r : Router κ) (subj : String) (handler : Handler κ)
    (middlewares : List (Middleware κ) := []) : Router κ :=
  r.addRoute GovernorEventApprove subj handler middlewares

/-- Model of `Router.Deny`. -/
def Router.Deny {κ : Type} (r : Router κ) (subj : String) (handler : Handler κ)
    (middlewares : List (Middleware κ) := []) : Router κ :=
  r.addRoute GovernorEventDeny subj handler middlewares

/-- Model of `Router.Revoke`. -/
def Router.Revoke {κ : Type} (r : Router κ) (subj : String) (handler : Handler κ)
    (middlewares : List (Middleware κ) := []) : Router κ :=
  r.addRoute GovernorEventRevoke subj handler middlewares

/-- Model of `Router.Process`: NotFound on an unregistered subject; save the subject
into the context; nil with no invocation when the action is unbound;
otherwise run the global chain around the bound handler. -/
def Router.Process {κ : Type} (r : Router κ) (ctx : Ctx) (subj : String)
    (event : Event) (w : World κ) : GoError × World κ :=
  match alookup r.routes subj with
  | none => (some Err.handlerNotFound, w)
  | some inner =>
    let ctx := SaveSubjectToContext ctx subj
    match alookup inner event.action with
    | some handler => r.mwchain handler ctx event w
    | none => (none, w)

/-- Model of `Router.Subjects`: the keys of the route table. -/
def Router.Subjects {κ : Type} (r : Router κ) : List String :=
  r.routes.map Prod.fst

/-! ### Model handlers and marker middlewares used in the scenarios -/

/-- A handler that records its invocation in the log and returns `res`. -/
def logHandler {κ : Type} (name : String) (res : GoError) : Handler κ :=
  fun _ _ w => (res, { w with log := w.log ++ [name] })

/-- A middleware that records entry and exit markers around the wrapped
handler, without altering the error value. -/
def markerMW {κ : Type} (name : String) : Middleware κ :=
  fun next ctx event w =>
    match next ctx event { w with log := w.log ++ [name ++ "-in"] } with
    | (res, w1) => (res, { w1 with log := w1.log ++ [name ++ "-out"] })

/-- A history cache whose backing store always fails. -/
def failingCache (msg : String) : HistoryCache Unit :=
  ⟨fun s _ => (false, some (Err.cacheErr msg), s)⟩

/-- The handler bound at (subject, action), if any. -/
def Router.lookupHandler {κ : Type} (r : Router κ) (subj action : String) :
    Option (Handler κ) :=
  match alookup r.routes subj with
  | some inner => alookup inner action
  | none => none

/-! ### Association-list lemmas -/

theorem alookup_ainsert_self {α : Type} (l : List (String × α)) (k : String) (v : α) :
    alookup (ainsert l k v) k = some v := by
  induction l with
  | nil => simp [ainsert, alookup]
  | cons hd tl ih =>
    obtain ⟨a, b⟩ := hd
    by_cases hk : a = k
    · simp [ainsert, alookup, hk]
    · simpa [ainsert, alookup, hk] using ih

theorem alookup_ainsert_ne {α : Type} (l : List (String × α)) (k k1 : String) (v : α)
    (h : k1 ≠ k) : alookup (ainsert l k v) k1 = alookup l k1 := by
  have hk2 : k ≠ k1 := fun hh => h hh.symm
  induction l with
  | nil => simp [ainsert, alookup, hk2]
  | cons hd tl ih =>
    obtain ⟨a, b⟩ := hd
    by_cases hk : a = k
    · simp [ainsert, alookup, hk, hk2]
    · simp [ainsert, alookup, hk, ih]

theorem alookup_isSome_iff_mem_keys {α : Type} (l : List (String × α)) (k : String) :
    (alookup l k).isSome ↔ k ∈ l.map Prod.fst := by
  induction l with
  | nil => simp [alookup]
  | cons hd tl ih =>
    obtain ⟨a, b⟩ := hd
    by_cases hk : a = k
    · simp [alookup, hk]
    · have hk2 : ¬k = a := fun hh => hk hh.symm
      simp [alookup, hk, hk2, ih]

theorem alookup_mem {α : Type} (l : List (String × α)) (k : String) (v : α)
    (h : alookup l k = some v) : (k, v) ∈ l := by
  induction l with
  | nil => simp [alookup] at h
  | cons hd tl ih =>
    obtain ⟨a, b⟩ := hd
    by_cases hk : a = k
    · subst hk
      simp [alookup] at h
      simp [h]
    · exact List.mem_cons_of_mem _ (ih (by simpa [alookup, hk] using h))

theorem mem_ainsert {α : Type} (l : List (String × α)) (k : String) (v : α) (e : String × α)
    (h : e ∈ ainsert l k v) : e = (k, v) ∨ e ∈ l := by
  induction l with
  | nil => simpa [ainsert] using h
  | cons hd tl ih =>
    obtain ⟨a, b⟩ := hd
    by_cases hk : a = k
    · subst hk
      simp [ainsert] at h
      rcases h with h | h
      · exact Or.inl h
      · exact Or.inr (by simp [h])
    · simp [ainsert, hk] at h
      rcases h with h | h
      · exact Or.inr (by simp [h])
      · rcases ih h with h1 | h1
        · exact Or.inl h1
        · exact Or.inr (by simp [h1])

theorem keys_ainsert {α : Type} (l : List (String × α)) (k : String) (v : α) (s : String) :
    s ∈ (ainsert l k v).map Prod.fst ↔ s = k ∨ s ∈ l.map Prod.fst := by
  induction l with
  | nil => simp [ainsert]
  | cons hd tl ih =>
    obtain ⟨a, b⟩ := hd
    by_cases hk : a = k
    · subst hk
      simp [ainsert]
    · simp [ainsert, hk, ih]
      tauto

theorem nodup_keys_ainsert {α : Type} (l : List (String × α)) (k : String) (v : α)
    (h : (l.map Prod.fst).Nodup) : ((ainsert l k v).map Prod.fst).Nodup := by
  induction l with
  | nil => simp [ainsert]
  | cons hd tl ih =>
    obtain ⟨a, b⟩ := hd
    rw [List.map_cons, List.nodup_cons] at h
    by_cases hk : a = k
    · subst hk
      have hins : ainsert ((a, b) :: tl) a v = (a, v) :: tl := by
        simp [ainsert]
      rw [hins, List.map_cons, List.nodup_cons]
      exact h
    · have hins : ainsert ((a, b) :: tl) k v = (a, b) :: ainsert tl k v := by
        simp [ainsert, hk]
      rw [hins, List.map_cons, List.nodup_cons]
      refine ⟨?_, ih h.2⟩
      intro hmem
      rcases (keys_ainsert tl k v a).mp hmem with h1 | h1
      · exact hk h1
      · exact h.1 h1

/-- C3: Process on a subject with no registered entries returns
`Err.handlerNotFound`; on a registered subject whose event action has no
bound handler it returns nil with the world untouched (no handler runs);
otherwise it runs the bound handler wrapped in the global middleware chain,
on the context carrying the subject, and returns that result unchanged. -/
theorem c3_process_dispatch {κ : Type} (r : Router κ) (ctx : Ctx) (subj : String)
    (event : Event) (w : World κ) :
    (alookup r.routes subj = none →
      r.Process ctx subj event w = (some Err.handlerNotFound, w)) ∧
    (∀ inner, alookup r.routes subj = some inner →
      alookup inner event.action = none →
      r.Process ctx subj event w = (none, w)) ∧
    (∀ inner handler, alookup r.routes subj = some inner →
      alookup inner event.action = some handler →
      r.Process ctx subj event w =
        r.mwchain handler (SaveSubjectToContext ctx subj) event w) := by
  refine ⟨fun h => ?_, fun inner h1 h2 => ?_, fun inner handler h1 h2 => ?_⟩ <;>
    simp [Router.Process, *]

/-- Witness for C3 at a concrete router: processing on the unregistered
subject "users" returns the NotFound error. -/
theorem c3_process_dispatch_witness :
    ((NewRouter LocalCache).Update "groups" (logHandler "h" none) []).Process
        Ctx.background "users" ⟨GovernorEventUpdate, none, "r1"⟩ ⟨[], []⟩
      = (some Err.handlerNotFound, ⟨[], []⟩) :=
  (c3_process_dispatch _ _ _ _ _).1 (by rfl)

/-- C10: on a registered subject whose event action is unbound, Process
returns nil and the world — in particular the history-cache state — is
returned unchanged: the middleware chain never runs, so nothing is recorded. -/
theorem c10_unbound_action_is_noop {κ : Type} (r : Router κ) (ctx : Ctx) (subj : String)
    (event : Event) (w : World κ) (inner : List (String × Handler κ))
    (h1 : alookup r.routes subj = some inner)
    (h2 : alookup inner event.action = none) :
    r.Process ctx subj event w = (none, w) ∧
    (r.Process ctx subj event w).2.cache = w.cache := by
  have hp : r.Process ctx subj event w = (none, w) := by
    simp [Router.Process, h1, h2]
  exact ⟨hp, by rw [hp]⟩

/-- Witness for C10: an Update-only route receives a Create event; the
result is nil and the cache is untouched. -/
theorem c10_unbound_action_is_noop_witness :
    ((NewRouter LocalCache).Update "groups" (logHandler "h" none) []).Process
        Ctx.background "groups" ⟨GovernorEventCreate, none, "r1"⟩ ⟨["x"], []⟩
      = (none, ⟨["x"], []⟩) ∧
    (((NewRouter LocalCache).Update "groups" (logHandler "h" none) []).Process
        Ctx.background "groups" ⟨GovernorEventCreate, none, "r1"⟩ ⟨["x"], []⟩).2.cache
      = ["x"] :=
  c10_unbound_action_is_noop _ _ _ _ _
    [(GovernorEventUpdate, logHandler "h" none)] (by rfl) (by rfl)

/-- C9: for a Create event whose correlation ID is already in the history
cache, ShouldSkip says skip under the SkipAll strategy and not-skip under
the UpdateOnly strategy. -/
theorem c9_create_skip_strategies (c : LocalCache) (cid subj : String)
    (h : c.contains cid = true) :
    CorrelationIDProcessor.ShouldSkip ⟨localHistoryCache, skipStrategySkipAll⟩ c cid
        GovernorEventCreate subj = (true, none, c) ∧
    CorrelationIDProcessor.ShouldSkip ⟨localHistoryCache, skipStrategyUpdateOnly⟩ c cid
        GovernorEventCreate subj = (false, none, c) := by
  have hm : cid ∈ c := by simpa using h
  constructor <;>
    simp [CorrelationIDProcessor.ShouldSkip, localHistoryCache, LocalCache.existsOrStore, hm,
      skipStrategySkipAll, skipStrategyUpdateOnly, alookup,
      GovernorEventCreate, GovernorEventUpdate, GovernorEventDelete,
      GovernorEventApprove, GovernorEventDeny, GovernorEventRevoke]

/-- Witness for C9 with the ID "abc" already cached. -/
theorem c9_create_skip_strategies_witness :
    CorrelationIDProcessor.ShouldSkip ⟨localHistoryCache, skipStrategySkipAll⟩ ["abc"] "abc"
        GovernorEventCreate "groups" = (true, none, ["abc"]) ∧
    CorrelationIDProcessor.ShouldSkip ⟨localHistoryCache, skipStrategyUpdateOnly⟩ ["abc"] "abc"
        GovernorEventCreate "groups" = (false, none, ["abc"]) :=
  c9_create_skip_strategies ["abc"] "abc" "groups" (by rfl)

/-- C4: for a fresh id, two sequential ExistsOrStore calls return
(false, nil) then (true, nil), identically for the local cache and for the
NATS cache (no eviction, expiry or store failure in between). -/
theorem c4_exists_or_store_contract (lc : LocalCache) (kv : NatsKV) (id : String)
    (h1 : lc.contains id = false) (h2 : kv.keys.contains id = false)
    (h3 : kv.ioFail id = none) :
    LocalCache.existsOrStore lc id = (false, none, id :: lc) ∧
    LocalCache.existsOrStore (id :: lc) id = (true, none, id :: lc) ∧
    NATSCache.existsOrStore kv id = (false, none, { kv with keys := id :: kv.keys }) ∧
    NATSCache.existsOrStore { kv with keys := id :: kv.keys } id
      = (true, none, { kv with keys := id :: kv.keys }) := by
  have hm1 : id ∉ lc := by simpa using h1
  have hm2 : id ∉ kv.keys := by simpa using h2
  refine ⟨?_, ?_, ?_, ?_⟩
  · simp [LocalCache.existsOrStore, hm1]
  · simp [LocalCache.existsOrStore, List.contains_cons]
  · simp [NATSCache.existsOrStore, NatsKV.create, hm2, h3]
  · simp [NATSCache.existsOrStore, NatsKV.create, h3, List.contains_cons]

/-- Witness for C4 with the fresh id "abc" on empty backing stores. -/
theorem c4_exists_or_store_contract_witness :
    LocalCache.existsOrStore [] "abc" = (false, none, ["abc"]) ∧
    LocalCache.existsOrStore ["abc"] "abc" = (true, none, ["abc"]) ∧
    NATSCache.existsOrStore ⟨[], fun _ => none⟩ "abc"
      = (false, none, ⟨["abc"], fun _ => none⟩) ∧
    NATSCache.existsOrStore ⟨["abc"], fun _ => none⟩ "abc"
      = (true, none, ⟨["abc"], fun _ => none⟩) :=
  c4_exists_or_store_contract [] ⟨[], fun _ => none⟩ "abc" (by rfl) (by rfl) (by rfl)

/-- C7: the distributed ExistsOrStore returns (false, nil) exactly when the
store's create-if-absent succeeds, (true, nil) exactly when the create fails
with the key-already-exists condition, and propagates any other create
failure with existed = false. -/
theorem c7_nats_create_characterisation (kv : NatsKV) (id : String) :
    (NATSCache.existsOrStore kv id = (false, none, (kv.create id).2) ↔
      (kv.create id).1 = none) ∧
    (NATSCache.existsOrStore kv id = (true, none, (kv.create id).2) ↔
      (kv.create id).1 = some Err.keyExists) ∧
    (∀ e : Err, e ≠ Err.keyExists →
      (NATSCache.existsOrStore kv id = (false, some e, (kv.create id).2) ↔
        (kv.create id).1 = some e)) := by
  rcases hc : kv.create id with ⟨oe, kv1⟩
  have hs : NATSCache.existsOrStore kv id =
      match oe with
      | none => (false, none, kv1)
      | some e =>
        if e = Err.keyExists then (true, none, kv1) else (false, some e, kv1) := by
    unfold NATSCache.existsOrStore
    simp only [hc]
    cases oe <;> rfl
  rcases oe with _ | e1
  · refine ⟨by simp [hs, hc], by simp [hs, hc], fun e he => by simp [hs, hc]⟩
  · by_cases he1 : e1 = Err.keyExists
    · subst he1
      refine ⟨by simp [hs, hc], by simp [hs, hc], fun e he => ?_⟩
      simp [hs, hc]
      exact fun h1 => he h1.symm
    · refine ⟨by simp [hs, hc, he1], by simp [hs, hc, he1], fun e he => ?_⟩
      simp [hs, hc, he1]

/-- Witness for C7: a store whose create always fails with an I/O error
makes ExistsOrStore surface that error with existed = false. -/
theorem c7_nats_create_characterisation_witness :
    NATSCache.existsOrStore ⟨[], fun _ => some "io"⟩ "x"
      = (false, some (Err.cacheErr "io"), ⟨[], fun _ => some "io"⟩) :=
  ((c7_nats_create_characterisation ⟨[], fun _ => some "io"⟩ "x").2.2
    (Err.cacheErr "io") (by decide)).mpr (by rfl)

/-- C6: when the history cache's ExistsOrStore fails, ShouldSkip propagates
the error (with skip = false), and the correlation middleware returns the
error without invoking the next handler: its result does not depend on
`next` at all. -/
theorem c6_cache_error_aborts {κ : Type} (p : CorrelationIDProcessor κ) (next : Handler κ)
    (ctx : Ctx) (event : Event) (w : World κ) (b : Bool) (e : Err) (c1 : κ)
    (h : p.histcache.existsOrStore w.cache (eventCID event) = (b, some e, c1)) :
    p.ShouldSkip w.cache (eventCID event) event.action (GetSubjectFromContext ctx)
      = (false, some e, c1) ∧
    p.MWInjectCorrelationID next ctx event w = (some e, { w with cache := c1 }) := by
  have hs : p.ShouldSkip w.cache (eventCID event) event.action (GetSubjectFromContext ctx)
      = (false, some e, c1) := by
    unfold CorrelationIDProcessor.ShouldSkip
    simp only [h]
  refine ⟨hs, ?_⟩
  unfold CorrelationIDProcessor.MWInjectCorrelationID
  simp only [hs]

/-- Witness for C6 with an always-failing backing store. -/
theorem c6_cache_error_aborts_witness :
    CorrelationIDProcessor.ShouldSkip
        (⟨failingCache "boom", skipStrategyUpdateOnly⟩ : CorrelationIDProcessor Unit)
        () "abc" GovernorEventUpdate "groups"
      = (false, some (Err.cacheErr "boom"), ()) ∧
    CorrelationIDProcessor.MWInjectCorrelationID
        (⟨failingCache "boom", skipStrategyUpdateOnly⟩ : CorrelationIDProcessor Unit)
        (logHandler "h" none) (SaveSubjectToContext Ctx.background "groups")
        ⟨GovernorEventUpdate, some [(GovernorEventCorrelationIDHeader, "abc")], "r1"⟩
        ⟨(), []⟩
      = (some (Err.cacheErr "boom"), ⟨(), []⟩) :=
  c6_cache_error_aborts
    (⟨failingCache "boom", skipStrategyUpdateOnly⟩ : CorrelationIDProcessor Unit)
    (logHandler "h" none) (SaveSubjectToContext Ctx.background "groups")
    ⟨GovernorEventUpdate, some [(GovernorEventCorrelationIDHeader, "abc")], "r1"⟩
    ⟨(), []⟩ false (Err.cacheErr "boom") () (by rfl)

/-- The pure strategy decision ShouldSkip makes once the ID was already
present: wildcard subject, or the specific subject. -/
def skipLookup (sr : SkipRoutes) (action subj : String) : Bool :=
  match alookup sr action with
  | some subjs => subjs.contains "*" || subjs.contains subj
  | none => false

/-- Over the local cache, ShouldSkip never errors: it reports the strategy
decision when the ID was present and stores the ID when it was not. -/
theorem local_should_skip_eq (sr : SkipRoutes) (c : LocalCache) (cid action subj : String) :
    CorrelationIDProcessor.ShouldSkip ⟨localHistoryCache, sr⟩ c cid action subj
      = (if c.contains cid then skipLookup sr action subj else false, none,
         if c.contains cid then c else cid :: c) := by
  unfold CorrelationIDProcessor.ShouldSkip localHistoryCache LocalCache.existsOrStore skipLookup
  by_cases hc : cid ∈ c
  · simp only [hc]
    rcases alookup sr action with _ | subjs
    · simp [hc]
    · by_cases h1 : "*" ∈ subjs <;> by_cases h2 : subj ∈ subjs <;> simp [hc, h1, h2]
  · simp [hc]

/-- C5: global middlewares compose as a stack. After Use A then Use B the
chain wraps B around A around the old chain, so the most recently added
middleware is outermost; dispatching with entry/exit markers runs the
inbound code in order B, A, then the handler, and the outbound code in
order A, B, with the handler result unchanged. -/
theorem c5_use_lifo {κ : Type} (r : Router κ) (A B : Middleware κ) (res : GoError) (c : κ) :
    (∀ h : Handler κ, ((r.Use A).Use B).mwchain h = B (A (r.mwchain h))) ∧
    ((((NewRouter κ).Update "groups" (logHandler "handler" res) []).Use
        (markerMW "A")).Use (markerMW "B")).Process Ctx.background "groups"
        ⟨GovernorEventUpdate, none, "r1"⟩ ⟨c, []⟩
      = (res, ⟨c, ["B-in", "A-in", "handler", "A-out", "B-out"]⟩) := by
  exact ⟨fun h => rfl, rfl⟩

/-- C1: UpdateOnly strategy over the local cache, Update handler on
"groups": delivering the same Update event with a non-empty correlation ID
twice in direct succession makes the first Process run the handler exactly
once (one log entry) and return its result, and the second Process return
nil with the handler not run (log unchanged). -/
theorem c1_update_only_dedup (res : GoError) (cid : String) (h : cid ≠ "") :
    ((WithCorrelationIDProcessor ⟨localHistoryCache, skipStrategyUpdateOnly⟩
        ((NewRouter LocalCache).Update "groups" (logHandler "handler" res) [])).Process
        Ctx.background "groups"
        ⟨GovernorEventUpdate, some [(GovernorEventCorrelationIDHeader, cid)], "r1"⟩
        ⟨[], []⟩
      = (res, ⟨[cid], ["handler"]⟩)) ∧
    ((WithCorrelationIDProcessor ⟨localHistoryCache, skipStrategyUpdateOnly⟩
        ((NewRouter LocalCache).Update "groups" (logHandler "handler" res) [])).Process
        Ctx.background "groups"
        ⟨GovernorEventUpdate, some [(GovernorEventCorrelationIDHeader, cid)], "r1"⟩
        ⟨[cid], ["handler"]⟩
      = (none, ⟨[cid], ["handler"]⟩)) := by
  constructor
  · simp [WithCorrelationIDProcessor, Router.applyGlobalMiddleware, Router.Process,
      Router.Update, Router.addRoute, alookup, ainsert, NewRouter,
      CorrelationIDProcessor.MWInjectCorrelationID, local_should_skip_eq,
      eventCID, headerGet, GetSubjectFromContext, SaveSubjectToContext,
      skipLookup, skipStrategyUpdateOnly, GovernorEventUpdate,
      logHandler, InjectCorrelationID, Ctx.background]
  · simp [WithCorrelationIDProcessor, Router.applyGlobalMiddleware, Router.Process,
      Router.Update, Router.addRoute, alookup, ainsert, NewRouter,
      CorrelationIDProcessor.MWInjectCorrelationID, local_should_skip_eq,
      eventCID, headerGet, GetSubjectFromContext, SaveSubjectToContext,
      skipLookup, skipStrategyUpdateOnly, GovernorEventUpdate,
      logHandler, InjectCorrelationID, Ctx.background, h]

/-- Witness for C1 at correlation ID "abc" and a handler failing with "e". -/
theorem c1_update_only_dedup_witness :
    ((WithCorrelationIDProcessor ⟨localHistoryCache, skipStrategyUpdateOnly⟩
        ((NewRouter LocalCache).Update "groups"
          (logHandler "handler" (some (Err.handlerErr "e"))) [])).Process
        Ctx.background "groups"
        ⟨GovernorEventUpdate, some [(GovernorEventCorrelationIDHeader, "abc")], "r1"⟩
        ⟨[], []⟩
      = (some (Err.handlerErr "e"), ⟨["abc"], ["handler"]⟩)) ∧
    ((WithCorrelationIDProcessor ⟨localHistoryCache, skipStrategyUpdateOnly⟩
        ((NewRouter LocalCache).Update "groups"
          (logHandler "handler" (some (Err.handlerErr "e"))) [])).Process
        Ctx.background "groups"
        ⟨GovernorEventUpdate, some [(GovernorEventCorrelationIDHeader, "abc")], "r1"⟩
        ⟨["abc"], ["handler"]⟩
      = (none, ⟨["abc"], ["handler"]⟩)) :=
  c1_update_only_dedup (some (Err.handlerErr "e")) "abc" (by decide)

/-- C2 counterexample: an event whose correlation-ID header is absent
(cid = ""), processed by the correlation middleware under the UpdateOnly
strategy from an empty local cache, leaves the cache non-empty: the skip
logic IS evaluated and the empty ID IS recorded (the cache afterwards is
[""], not []), contradicting "never records anything in the History Cache,
and invokes the next handler directly without evaluating the skip logic". -/
theorem c2_empty_cid_counterexample :
    (CorrelationIDProcessor.MWInjectCorrelationID
        (⟨localHistoryCache, skipStrategyUpdateOnly⟩ : CorrelationIDProcessor LocalCache)
        (logHandler "handler" none)
        (SaveSubjectToContext Ctx.background "groups")
        ⟨GovernorEventUpdate, none, "r1"⟩ ⟨[], []⟩).2.cache = [""] ∧
    ¬ (CorrelationIDProcessor.MWInjectCorrelationID
        (⟨localHistoryCache, skipStrategyUpdateOnly⟩ : CorrelationIDProcessor LocalCache)
        (logHandler "handler" none)
        (SaveSubjectToContext Ctx.background "groups")
        ⟨GovernorEventUpdate, none, "r1"⟩ ⟨[], []⟩).2.cache = [] := by
  exact ⟨rfl, by decide⟩

/-- C2 amended: for every event whose correlation ID is empty (header map
nil, key absent, or value ""), every skip strategy and every local-cache
state, the middleware never skips — it always invokes the next handler,
with the correlation ID "" injected, and returns that handler's result —
but, contrary to the original claim, the skip logic is evaluated and the
empty ID is passed to ExistsOrStore, which records "" when absent. -/
theorem c2_empty_cid_no_skip (sr : SkipRoutes) (next : Handler LocalCache)
    (ctx : Ctx) (event : Event) (c : LocalCache) (lg : List String)
    (h : eventCID event = "") :
    CorrelationIDProcessor.MWInjectCorrelationID
        (⟨localHistoryCache, sr⟩ : CorrelationIDProcessor LocalCache) next ctx event ⟨c, lg⟩
      = next (InjectCorrelationID ctx "") event
          ⟨if c.contains "" then c else "" :: c, lg⟩ := by
  unfold CorrelationIDProcessor.MWInjectCorrelationID
  rw [h]
  simp only [local_should_skip_eq]
  simp

/-- Witness for the amended C2: nil header map, UpdateOnly strategy, empty
cache; the handler runs and "" is recorded. -/
theorem c2_empty_cid_no_skip_witness :
    CorrelationIDProcessor.MWInjectCorrelationID
        (⟨localHistoryCache, skipStrategyUpdateOnly⟩ : CorrelationIDProcessor LocalCache)
        (logHandler "handler" none) (SaveSubjectToContext Ctx.background "groups")
        ⟨GovernorEventUpdate, none, "r1"⟩ ⟨[], []⟩
      = logHandler "handler" none
          (InjectCorrelationID (SaveSubjectToContext Ctx.background "groups") "")
          ⟨GovernorEventUpdate, none, "r1"⟩ ⟨[""], []⟩ :=
  c2_empty_cid_no_skip skipStrategyUpdateOnly (logHandler "handler" none)
    (SaveSubjectToContext Ctx.background "groups")
    ⟨GovernorEventUpdate, none, "r1"⟩ [] [] (by rfl)

/-! ### Route-registration sequences (for the table invariant) -/

/-- One call through one of the six action-specific registration entry
points (Create/Update/Delete/Approve/Deny/Revoke). -/
inductive RegCall (κ : Type) where
  | createR : String → Handler κ → List (Middleware κ) → RegCall κ
  | updateR : String → Handler κ → List (Middleware κ) → RegCall κ
  | deleteR : String → Handler κ → List (Middleware κ) → RegCall κ
  | approveR : String → Handler κ → List (Middleware κ) → RegCall κ
  | denyR : String → Handler κ → List (Middleware κ) → RegCall κ
  | revokeR : String → Handler κ → List (Middleware κ) → RegCall κ

/-- Perform one registration call on the router. -/
def applyReg {κ : Type} (r : Router κ) : RegCall κ → Router κ
  | .createR s h mws => r.Create s h mws
  | .updateR s h mws => r.Update s h mws
  | .deleteR s h mws => r.Delete s h mws
  | .approveR s h mws => r.Approve s h mws
  | .denyR s h mws => r.Deny s h mws
  | .revokeR s h mws => r.Revoke s h mws

/-- Perform a sequence of registration calls, in order. -/
def applyRegs {κ : Type} (r : Router κ) (l : List (RegCall κ)) : Router κ :=
  l.foldl applyReg r

/-- Well-formedness of the route table: subject keys are duplicate-free,
and every subject entry has a non-empty, duplicate-free action map — i.e.
at most one handler per (subject, action) and no empty subjects. -/
def RouterWF {κ : Type} (r : Router κ) : Prop :=
  (r.routes.map Prod.fst).Nodup ∧
  ∀ e ∈ r.routes, e.2 ≠ [] ∧ (e.2.map Prod.fst).Nodup

theorem ainsert_ne_nil {α : Type} (l : List (String × α)) (k : String) (v : α) :
    ainsert l k v ≠ [] := by
  cases l with
  | nil => simp [ainsert]
  | cons hd tl =>
    obtain ⟨a, b⟩ := hd
    by_cases hk : a = k <;> simp [ainsert, hk]

theorem routerWF_addRoute {κ : Type} (r : Router κ) (action subj : String)
    (h : Handler κ) (mws : List (Middleware κ)) (hwf : RouterWF r) :
    RouterWF (r.addRoute action subj h mws) := by
  obtain ⟨hnd, hinner⟩ := hwf
  unfold Router.addRoute
  constructor
  · exact nodup_keys_ainsert _ _ _ hnd
  · intro e he
    rcases mem_ainsert _ _ _ _ he with h1 | h1
    · subst h1
      refine ⟨ainsert_ne_nil _ _ _, ?_⟩
      apply nodup_keys_ainsert
      rcases ha : alookup r.routes subj with _ | inner
      · simp [ha]
      · have hw := hinner _ (alookup_mem _ _ _ ha)
        simpa [ha] using hw.2
    · exact hinner _ h1

theorem routerWF_applyReg {κ : Type} (r : Router κ) (reg : RegCall κ)
    (hwf : RouterWF r) : RouterWF (applyReg r reg) := by
  cases reg <;> exact routerWF_addRoute _ _ _ _ _ hwf

theorem routerWF_applyRegs {κ : Type} (l : List (RegCall κ)) (r : Router κ)
    (hwf : RouterWF r) : RouterWF (applyRegs r l) := by
  induction l generalizing r with
  | nil => exact hwf
  | cons hd tl ih => exact ih _ (routerWF_applyReg _ _ hwf)

theorem subjects_iff_of_wf {κ : Type} (r : Router κ) (hwf : RouterWF r) (s : String) :
    s ∈ r.Subjects ↔ ∃ a, (r.lookupHandler s a).isSome := by
  unfold Router.Subjects Router.lookupHandler
  constructor
  · intro hs
    have h1 : (alookup r.routes s).isSome := (alookup_isSome_iff_mem_keys _ _).mpr hs
    rcases ho : alookup r.routes s with _ | inner
    · rw [ho] at h1
      simp at h1
    · have hmem := alookup_mem _ _ _ ho
      have hne := (hwf.2 _ hmem).1
      rcases inner with _ | ⟨⟨a, hh⟩, rest⟩
      · exact absurd rfl hne
      · refine ⟨a, ?_⟩
        simp [ho, alookup]
  · rintro ⟨a, ha⟩
    rcases ho : alookup r.routes s with _ | inner
    · rw [ho] at ha
      simp at ha
    · exact (alookup_isSome_iff_mem_keys _ _).mp (by simp [ho])

theorem lookup_addRoute_self {κ : Type} (r : Router κ) (action subj : String)
    (h : Handler κ) (mws : List (Middleware κ)) :
    (r.addRoute action subj h mws).lookupHandler subj action
      = some (mws.foldl (fun hh mw => mw hh) h) := by
  unfold Router.addRoute Router.lookupHandler
  simp [alookup_ainsert_self]

/-- C8: after any sequence of registration calls on a fresh router, the
route table is well-formed (at most one handler per (subject, action), no
subject without actions), Subjects() contains a subject iff at least one
action is registered for it, and registering at an existing (subject,
action) overwrites the binding — the new route-wrapped handler is what a
subsequent lookup finds, and registration has no error outcome at all. -/
theorem c8_route_table_invariant {κ : Type} (l : List (RegCall κ)) :
    RouterWF (applyRegs (NewRouter κ) l) ∧
    (∀ s, s ∈ (applyRegs (NewRouter κ) l).Subjects ↔
      ∃ a, ((applyRegs (NewRouter κ) l).lookupHandler s a).isSome) ∧
    (∀ (r : Router κ) (action subj : String) (h : Handler κ)
        (mws : List (Middleware κ)),
      (r.addRoute action subj h mws).lookupHandler subj action
        = some (mws.foldl (fun hh mw => mw hh) h)) := by
  have hwf : RouterWF (applyRegs (NewRouter κ) l) :=
    routerWF_applyRegs l _ (by constructor <;> simp [NewRouter])
  exact ⟨hwf, fun s => subjects_iff_of_wf _ hwf s,
    fun r action subj h mws => lookup_addRoute_self r action subj h mws⟩

/-- Witness for C8: registering an Update handler on "groups" puts "groups"
into Subjects(). -/
theorem c8_route_table_invariant_witness :
    "groups" ∈ (applyRegs (NewRouter LocalCache)
      [RegCall.updateR "groups" (logHandler "h" none) []]).Subjects :=
  ((c8_route_table_invariant
      [RegCall.updateR "groups" (logHandler "h" none) []]).2.1 "groups").mpr
    ⟨GovernorEventUpdate, by rfl⟩
